import Mathlib

/-!
# Verification of the chatsafe request-lifecycle core

Shallow embedding of the Rust sources of the `chatsafe` repository:

* `crates/local-api/src/rate_limiter.rs` — token buckets, two-phase
  rate-limit check with rollback, release;
* `crates/runtime/src/template_engine.rs` — prompt/response cleaning;
* `crates/runtime/src/llama_adapter.rs` — the streaming `generate` loop;
* `crates/common/src/dto.rs` — request validation;
* `crates/common/src/error.rs` — error taxonomy.

Rust `String` values are modelled as `List Char`; Rust `f64`/`f32`
arithmetic is modelled exactly over `ℚ` (the spec itself describes bucket
tokens as "a real number"); wall-clock elapsed time is passed explicitly
as a nonnegative rational parameter.
-/

namespace ChatSafe

/-! ## Token bucket (`rate_limiter.rs`, `TokenBucket`) -/

/-- `TokenBucket` from `rate_limiter.rs`: capacity is a `u32`, the token
count a float (modelled exactly over `ℚ`), plus the refill rate in tokens
per second.  `last_refill` is replaced by passing the elapsed seconds to
each operation explicitly. -/
structure TokenBucket where
  capacity : ℕ
  refillRate : ℚ
  tokens : ℚ
  deriving Repr, DecidableEq

namespace TokenBucket

/-- `TokenBucket::new(capacity, refill_rate)`: starts full. -/
def new (capacity : ℕ) (refillRate : ℚ) : TokenBucket :=
  { capacity := capacity, refillRate := refillRate, tokens := capacity }

/-- `TokenBucket::refill`, with the elapsed seconds `e` passed in:
`tokens = min (tokens + elapsed * refill_rate) capacity`. -/
def refill (b : TokenBucket) (e : ℚ) : TokenBucket :=
  { b with tokens := min (b.tokens + e * b.refillRate) (b.capacity : ℚ) }

/-- `TokenBucket::try_consume(tokens)`: refill lazily, then consume `n`
tokens if available.  Returns the success flag and the updated bucket. -/
def tryConsume (b : TokenBucket) (e : ℚ) (n : ℕ) : Bool × TokenBucket :=
  let b' := b.refill e
  if (n : ℚ) ≤ b'.tokens then
    (true, { b' with tokens := b'.tokens - n })
  else
    (false, b')

/-- `TokenBucket::return_token`: give one token back, clamped at
capacity (rollback helper). -/
def returnToken (b : TokenBucket) : TokenBucket :=
  { b with tokens := min (b.tokens + 1) (b.capacity : ℚ) }

/-- The bucket invariant: the token count stays within `[0, capacity]`. -/
def Inv (b : TokenBucket) : Prop :=
  0 ≤ b.tokens ∧ b.tokens ≤ (b.capacity : ℚ)

instance (b : TokenBucket) : Decidable b.Inv := by
  unfold Inv; infer_instance

/-- One abstract client operation on a bucket: a consume attempt (with
elapsed time), a bare refill, or a rollback `return_token`. -/
inductive Op where
  | consume (e : ℚ) (n : ℕ)
  | refillOp (e : ℚ)
  | ret
  deriving Repr, DecidableEq

/-- The elapsed-time argument carried by an operation (0 for `ret`). -/
def Op.elapsed : Op → ℚ
  | .consume e _ => e
  | .refillOp e => e
  | .ret => 0

/-- Apply one operation to a bucket. -/
def applyOp (b : TokenBucket) : Op → TokenBucket
  | .consume e n => (b.tryConsume e n).2
  | .refillOp e => b.refill e
  | .ret => b.returnToken

/-- Apply a sequence of operations in order. -/
def runOps (b : TokenBucket) : List Op → TokenBucket
  | [] => b
  | op :: ops => runOps (applyOp b op) ops

theorem refill_inv {b : TokenBucket} {e : ℚ} (hb : 0 ≤ b.tokens)
    (he : 0 ≤ e) (hr : 0 ≤ b.refillRate) : (b.refill e).Inv := by
  unfold refill Inv
  constructor
  · exact le_min (by positivity) (by positivity)
  · exact min_le_right _ _

theorem tryConsume_inv {b : TokenBucket} {e : ℚ} {n : ℕ} (hb : b.Inv)
    (he : 0 ≤ e) (hr : 0 ≤ b.refillRate) : (b.tryConsume e n).2.Inv := by
  have h := refill_inv (b := b) (e := e) hb.1 he hr
  unfold tryConsume
  simp only
  split
  · rename_i hle
    refine ⟨by simpa using sub_nonneg.mpr hle, ?_⟩
    simp only [refill] at *
    exact le_trans (by linarith [h.1]) h.2
  · exact h

theorem returnToken_inv {b : TokenBucket} (hb : 0 ≤ b.tokens) :
    b.returnToken.Inv := by
  unfold returnToken Inv
  constructor
  · exact le_min (by linarith) (by positivity)
  · exact min_le_right _ _

theorem applyOp_inv {b : TokenBucket} {op : Op} (hb : b.Inv)
    (he : 0 ≤ op.elapsed) (hr : 0 ≤ b.refillRate) : (applyOp b op).Inv := by
  cases op with
  | consume e n => exact tryConsume_inv hb he hr
  | refillOp e => exact refill_inv hb.1 he hr
  | ret => exact returnToken_inv hb.1

theorem applyOp_rate {b : TokenBucket} (op : Op) :
    (applyOp b op).refillRate = b.refillRate := by
  cases op with
  | consume e n => simp only [applyOp, tryConsume, refill]; split <;> rfl
  | refillOp e => rfl
  | ret => rfl

theorem runOps_inv {b : TokenBucket} {ops : List Op} (hb : b.Inv)
    (hops : ∀ op ∈ ops, 0 ≤ op.elapsed) (hr : 0 ≤ b.refillRate) :
    (runOps b ops).Inv := by
  induction ops generalizing b with
  | nil => exact hb
  | cons op ops ih =>
      have h1 : (applyOp b op).Inv :=
        applyOp_inv hb (hops op (List.mem_cons_self _ _)) hr
      have h2 : (applyOp b op).refillRate = b.refillRate := applyOp_rate op
      exact ih h1 (fun o ho => hops o (List.mem_cons_of_mem _ ho)) (h2 ▸ hr)

theorem new_inv (capacity : ℕ) (rate : ℚ) : (new capacity rate).Inv := by
  unfold new Inv
  constructor <;> simp

end TokenBucket

/-! ## Rate limiter (`rate_limiter.rs`, `RateLimiter`)

The claims under verification concern one designated IP together with the
global bucket, so the `HashMap<IpAddr, IpState>` is modelled by the
`Option IpState` entry of that IP (`none` = the IP has no entry yet, the
"fresh IP" case of `entry(ip).or_insert_with(...)`).  `last_seen` only
feeds the background GC and is elided. -/

/-- `RateLimiterConfig` (the `cleanup_interval` only feeds the GC task). -/
structure RateLimiterConfig where
  perIpPerMinute : ℕ
  maxConcurrentPerIp : ℕ
  globalPerMinute : ℕ
  deriving Repr, DecidableEq

/-- `IpState`: per-IP bucket plus the concurrent-request counter
(`usize`, hence `ℕ`). -/
structure IpState where
  bucket : TokenBucket
  concurrentRequests : ℕ
  deriving Repr, DecidableEq

/-- The fresh per-IP state built by `or_insert_with` in
`check_rate_limit`: a full bucket of capacity `per_ip_per_minute`
refilling at `per_ip_per_minute / 60` tokens per second. -/
def freshIpState (cfg : RateLimiterConfig) : IpState :=
  { bucket := TokenBucket.new cfg.perIpPerMinute ((cfg.perIpPerMinute : ℚ) / 60)
    concurrentRequests := 0 }

/-- The limiter state restricted to one designated IP: its (possibly
absent) map entry and the shared global bucket. -/
structure LimiterState where
  ipState : Option IpState
  globalBucket : TokenBucket
  deriving Repr, DecidableEq

/-- `RateLimiter::new`: empty IP map, full global bucket of capacity
`global_per_minute` refilling at `global_per_minute / 60` per second. -/
def initLimiter (cfg : RateLimiterConfig) : LimiterState :=
  { ipState := none
    globalBucket := TokenBucket.new cfg.globalPerMinute ((cfg.globalPerMinute : ℚ) / 60) }

/-- `RateLimiter::check_rate_limit(ip)` for the designated IP, with the
elapsed seconds for the per-IP refill (`eIp`) and the global refill
(`eG`) passed explicitly.  Returns `true` for `Ok(())`, `false` for
`Err(RateLimitExceeded)`, together with the updated state.  Mirrors the
source: Phase A inserts/updates the entry, checks the concurrency cap,
then the per-IP bucket; Phase B consumes from the global bucket and on
failure rolls Phase A back (`saturating_sub` on the counter,
`return_token` on the bucket). -/
def checkRateLimit (cfg : RateLimiterConfig) (st : LimiterState)
    (eIp eG : ℚ) : Bool × LimiterState :=
  let entry := st.ipState.getD (freshIpState cfg)
  if cfg.maxConcurrentPerIp ≤ entry.concurrentRequests then
    (false, { st with ipState := some entry })
  else
    match entry.bucket.tryConsume eIp 1 with
    | (false, b') =>
        (false, { st with ipState := some { entry with bucket := b' } })
    | (true, b') =>
        let entry' : IpState :=
          { bucket := b', concurrentRequests := entry.concurrentRequests + 1 }
        match st.globalBucket.tryConsume eG 1 with
        | (true, g') =>
            (true, { ipState := some entry', globalBucket := g' })
        | (false, g') =>
            (false,
             { ipState := some ({ bucket := entry'.bucket.returnToken
                                  concurrentRequests := entry'.concurrentRequests - 1 })
               globalBucket := g' })

/-- `RateLimiter::release_request(ip)`: decrement the counter
(saturating at 0, which is `Nat` subtraction) if the entry exists. -/
def releaseRequest (st : LimiterState) : LimiterState :=
  match st.ipState with
  | none => st
  | some entry =>
      { st with
        ipState := some ({ entry with concurrentRequests := entry.concurrentRequests - 1 }) }

/-- The designated IP's concurrent-request counter (0 if no entry). -/
def ipConcurrent (st : LimiterState) : ℕ :=
  match st.ipState with
  | none => 0
  | some entry => entry.concurrentRequests

/-- The designated IP's bucket token count, if the entry exists. -/
def ipTokens (st : LimiterState) : Option ℚ :=
  st.ipState.map (fun e => e.bucket.tokens)

/-- An interleaving step: a `check_rate_limit` call (with its two elapsed
times) or a `release_request` call, all for the designated IP. -/
inductive LimiterOp where
  | check (eIp eG : ℚ)
  | release
  deriving Repr, DecidableEq

/-- Apply one limiter operation (the result flag of `check` is dropped;
only the state evolution matters for the concurrency invariant). -/
def limiterStep (cfg : RateLimiterConfig) (st : LimiterState) :
    LimiterOp → LimiterState
  | .check eIp eG => (checkRateLimit cfg st eIp eG).2
  | .release => releaseRequest st

/-- Run a sequence of interleaved limiter operations. -/
def runLimiter (cfg : RateLimiterConfig) (st : LimiterState) :
    List LimiterOp → LimiterState
  | [] => st
  | op :: ops => runLimiter cfg (limiterStep cfg st op) ops

theorem checkRateLimit_concurrent_le {cfg : RateLimiterConfig}
    {st : LimiterState} (eIp eG : ℚ)
    (h : ipConcurrent st ≤ cfg.maxConcurrentPerIp) :
    ipConcurrent (checkRateLimit cfg st eIp eG).2 ≤ cfg.maxConcurrentPerIp := by
  unfold checkRateLimit
  cases hst : st.ipState with
  | none =>
      simp only [hst, Option.getD_none]
      split
      · simp [ipConcurrent, freshIpState]
      · rename_i hlt
        have hlt' : 0 < cfg.maxConcurrentPerIp := by
          simpa [freshIpState] using Nat.lt_of_not_le hlt
        rcases hc : (freshIpState cfg).bucket.tryConsume eIp 1 with ⟨flag, b'⟩
        cases flag
        · simp [hc, ipConcurrent, freshIpState]
        · rcases hg : st.globalBucket.tryConsume eG 1 with ⟨gflag, g'⟩
          cases gflag
          · simp [hc, hg, ipConcurrent, freshIpState]
          · simpa [hc, hg, ipConcurrent, freshIpState] using hlt'
  | some entry =>
      have hconc : entry.concurrentRequests ≤ cfg.maxConcurrentPerIp := by
        simpa [ipConcurrent, hst] using h
      simp only [hst, Option.getD_some]
      split
      · simpa [ipConcurrent] using hconc
      · rename_i hlt
        have hlt' : entry.concurrentRequests < cfg.maxConcurrentPerIp :=
          Nat.lt_of_not_le hlt
        rcases hc : entry.bucket.tryConsume eIp 1 with ⟨flag, b'⟩
        cases flag
        · simp only [hc, ipConcurrent]
          exact hconc
        · rcases hg : st.globalBucket.tryConsume eG 1 with ⟨gflag, g'⟩
          cases gflag
          · simp only [hc, hg, ipConcurrent]
            omega
          · simpa [hc, hg, ipConcurrent] using hlt'

theorem releaseRequest_concurrent (st : LimiterState) :
    ipConcurrent (releaseRequest st) = ipConcurrent st - 1 := by
  cases hst : st.ipState <;> simp [releaseRequest, ipConcurrent, hst]

theorem limiterStep_concurrent_le {cfg : RateLimiterConfig}
    {st : LimiterState} (op : LimiterOp)
    (h : ipConcurrent st ≤ cfg.maxConcurrentPerIp) :
    ipConcurrent (limiterStep cfg st op) ≤ cfg.maxConcurrentPerIp := by
  cases op with
  | check eIp eG => exact checkRateLimit_concurrent_le eIp eG h
  | release =>
      rw [limiterStep, releaseRequest_concurrent]
      omega

theorem runLimiter_concurrent_le {cfg : RateLimiterConfig}
    {st : LimiterState} {ops : List LimiterOp}
    (h : ipConcurrent st ≤ cfg.maxConcurrentPerIp) :
    ipConcurrent (runLimiter cfg st ops) ≤ cfg.maxConcurrentPerIp := by
  induction ops generalizing st with
  | nil => exact h
  | cons op ops ih => exact ih (limiterStep_concurrent_le op h)

theorem checkRateLimit_full_rejects {cfg : RateLimiterConfig}
    {st : LimiterState} (eIp eG : ℚ)
    (h : cfg.maxConcurrentPerIp ≤ ipConcurrent st) :
    (checkRateLimit cfg st eIp eG).1 = false ∧
    ipConcurrent (checkRateLimit cfg st eIp eG).2 = ipConcurrent st := by
  unfold checkRateLimit
  cases hst : st.ipState with
  | none =>
      have h0 : cfg.maxConcurrentPerIp = 0 := by
        simpa [ipConcurrent, hst] using h
      simp [hst, freshIpState, h0, ipConcurrent]
  | some entry =>
      have hc : cfg.maxConcurrentPerIp ≤ entry.concurrentRequests := by
        simpa [ipConcurrent, hst] using h
      simp [hst, hc, ipConcurrent]

theorem TokenBucket.new_refill_zero (c : ℕ) (r : ℚ) :
    (TokenBucket.new c r).refill 0 = TokenBucket.new c r := by
  simp [TokenBucket.new, TokenBucket.refill]

theorem TokenBucket.new_tryConsume_one {c : ℕ} (r : ℚ) (hc : 1 ≤ c) :
    (TokenBucket.new c r).tryConsume 0 1 =
      (true, { capacity := c, refillRate := r, tokens := (c : ℚ) - 1 }) := by
  unfold TokenBucket.tryConsume
  rw [TokenBucket.new_refill_zero]
  have h1 : ((1 : ℕ) : ℚ) ≤ ((c : ℕ) : ℚ) := Nat.cast_le.mpr hc
  simp only [TokenBucket.new]
  rw [if_pos (by exact_mod_cast h1)]
  norm_num

/-- Rolling back the fresh per-IP bucket restores it to full. -/
theorem TokenBucket.returnToken_after_consume (c : ℕ) (r : ℚ) :
    TokenBucket.returnToken { capacity := c, refillRate := r, tokens := (c : ℚ) - 1 } =
      TokenBucket.new c r := by
  unfold TokenBucket.returnToken TokenBucket.new
  simp

/-- Core rollback lemma for `check_rate_limit` on a fresh IP: when Phase A
succeeds (cap and concurrency limits allow it) and the global bucket
cannot consume a token, the call fails and the designated IP's entry is
left with `concurrent_requests = 0` and a full bucket again. -/
theorem checkRateLimit_fresh_global_rollback {cfg : RateLimiterConfig}
    {st : LimiterState} (h_fresh : st.ipState = none)
    (hK : 1 ≤ cfg.maxConcurrentPerIp) (hcap : 1 ≤ cfg.perIpPerMinute)
    (hg : (st.globalBucket.tryConsume 0 1).1 = false) :
    checkRateLimit cfg st 0 0 =
      (false, { ipState := some (freshIpState cfg)
                globalBucket := (st.globalBucket.tryConsume 0 1).2 }) := by
  unfold checkRateLimit
  rw [h_fresh]
  simp only [Option.getD_none]
  rw [if_neg (by simp [freshIpState, TokenBucket.new]; omega)]
  rw [show (freshIpState cfg).bucket.tryConsume 0 1 =
        (true, { capacity := cfg.perIpPerMinute
                 refillRate := (cfg.perIpPerMinute : ℚ) / 60
                 tokens := (cfg.perIpPerMinute : ℚ) - 1 }) from
      TokenBucket.new_tryConsume_one _ hcap]
  rcases hgc : st.globalBucket.tryConsume 0 1 with ⟨gflag, g'⟩
  have : gflag = false := by rw [hgc] at hg; exact hg
  subst this
  simp only []
  rw [TokenBucket.returnToken_after_consume]
  simp [freshIpState]

/-- `try_consume(1)` with no elapsed time, from a bucket whose count is
within bounds and at least 1: consumes exactly one token. -/
theorem TokenBucket.tryConsume_one_zero {b : TokenBucket}
    (hcap : b.tokens ≤ (b.capacity : ℚ)) (htok : 1 ≤ b.tokens) :
    b.tryConsume 0 1 = (true, { b with tokens := b.tokens - 1 }) := by
  unfold TokenBucket.tryConsume TokenBucket.refill
  simp only [zero_mul, add_zero]
  rw [min_eq_left hcap]
  rw [if_pos (by exact_mod_cast htok)]
  norm_num

/-- `return_token` exactly undoes such a consume. -/
theorem TokenBucket.returnToken_undo {b : TokenBucket}
    (hcap : b.tokens ≤ (b.capacity : ℚ)) :
    TokenBucket.returnToken { b with tokens := b.tokens - 1 } = b := by
  unfold TokenBucket.returnToken
  simp only [sub_add_cancel]
  rw [min_eq_left hcap]

/-- C2: for every IP (fresh or with an existing entry), if
`check_rate_limit` fails because the global bucket cannot consume a
token after the per-IP phase succeeded, the per-IP state is rolled back
before the error is returned: the call fails, the IP's
`concurrent_requests` equals its pre-call value (0 for a fresh IP, whose
entry starts at 0) and its bucket token count is unchanged from its
pre-call value (the full capacity for a fresh IP).  The hypotheses state
exactly that Phase A succeeds (concurrency below the cap, at least one
token in a within-bounds bucket) and Phase B fails, with no elapsed
refill time. -/
theorem C2_global_failure_rolls_back_ip_state
    (cfg : RateLimiterConfig) (st : LimiterState)
    (hK : (st.ipState.getD (freshIpState cfg)).concurrentRequests <
            cfg.maxConcurrentPerIp)
    (htok : 1 ≤ (st.ipState.getD (freshIpState cfg)).bucket.tokens)
    (hcap : (st.ipState.getD (freshIpState cfg)).bucket.tokens ≤
              ((st.ipState.getD (freshIpState cfg)).bucket.capacity : ℚ))
    (hg : (st.globalBucket.tryConsume 0 1).1 = false) :
    (checkRateLimit cfg st 0 0).1 = false ∧
    ipConcurrent (checkRateLimit cfg st 0 0).2 =
      (st.ipState.getD (freshIpState cfg)).concurrentRequests ∧
    ipTokens (checkRateLimit cfg st 0 0).2 =
      some (st.ipState.getD (freshIpState cfg)).bucket.tokens := by
  unfold checkRateLimit
  rw [if_neg (Nat.not_le.mpr hK)]
  rw [TokenBucket.tryConsume_one_zero hcap htok]
  rcases hgc : st.globalBucket.tryConsume 0 1 with ⟨gflag, g'⟩
  have hgf : gflag = false := by rw [hgc] at hg; exact hg
  subst hgf
  simp only []
  rw [TokenBucket.returnToken_undo hcap]
  exact ⟨by simp, by simp [ipConcurrent], by simp [ipTokens]⟩

/-- Witness for C2 at the spec's scenario 3: `per_ip = 100`,
`max_concurrent = 10`, global bucket already drained (capacity 1, zero
tokens): the second request is rejected with full per-IP rollback. -/
theorem C2_global_failure_rolls_back_ip_state_witness :
    (checkRateLimit ⟨100, 10, 1⟩
        ⟨none, { capacity := 1, refillRate := 1/60, tokens := 0 }⟩ 0 0).1 = false ∧
    ipConcurrent (checkRateLimit ⟨100, 10, 1⟩
        ⟨none, { capacity := 1, refillRate := 1/60, tokens := 0 }⟩ 0 0).2 = 0 ∧
    ipTokens (checkRateLimit ⟨100, 10, 1⟩
        ⟨none, { capacity := 1, refillRate := 1/60, tokens := 0 }⟩ 0 0).2 =
      some ((100 : ℚ)) := by
  have h := C2_global_failure_rolls_back_ip_state ⟨100, 10, 1⟩
    ⟨none, { capacity := 1, refillRate := 1/60, tokens := 0 }⟩
    (by norm_num [freshIpState, TokenBucket.new])
    (by norm_num [freshIpState, TokenBucket.new])
    (by norm_num [freshIpState, TokenBucket.new])
    (by norm_num [TokenBucket.tryConsume, TokenBucket.refill, min_def])
  refine ⟨h.1, ?_, ?_⟩
  · rw [h.2.1]
    norm_num [freshIpState, TokenBucket.new]
  · rw [h.2.2]
    norm_num [freshIpState, TokenBucket.new]

/-- C6: with `max_concurrent_per_ip = K`, for every interleaving of
`check_rate_limit` and `release_request` calls for one IP starting from
the initial limiter state, the IP's `concurrent_requests` counter never
exceeds `K`; moreover any `check_rate_limit` call made while the counter
is at (or beyond) `K` fails and leaves the counter unchanged, and
`release_request` decrements the counter saturating at 0 (the counter is
a natural number, so it never goes below 0). -/
theorem C6_concurrency_cap (cfg : RateLimiterConfig) (ops : List LimiterOp)
    (st : LimiterState) (eIp eG : ℚ)
    (hfull : cfg.maxConcurrentPerIp ≤ ipConcurrent st) :
    ipConcurrent (runLimiter cfg (initLimiter cfg) ops) ≤ cfg.maxConcurrentPerIp ∧
    (checkRateLimit cfg st eIp eG).1 = false ∧
    ipConcurrent (checkRateLimit cfg st eIp eG).2 = ipConcurrent st ∧
    (∀ st' : LimiterState, ipConcurrent (releaseRequest st') = ipConcurrent st' - 1) := by
  refine ⟨runLimiter_concurrent_le (by simp [initLimiter, ipConcurrent]), ?_, ?_,
    fun st' => releaseRequest_concurrent st'⟩
  · exact (checkRateLimit_full_rejects eIp eG hfull).1
  · exact (checkRateLimit_full_rejects eIp eG hfull).2

/-- Witness for C6 with `K = 2`: three immediate checks plus a release
from the initial state keep the counter at most 2, a check against a
state already at 2 concurrent requests is rejected without change, and a
release on a counter of 0 stays 0. -/
theorem C6_concurrency_cap_witness :
    ipConcurrent (runLimiter ⟨100, 2, 1000⟩ (initLimiter ⟨100, 2, 1000⟩)
        [LimiterOp.check 0 0, LimiterOp.check 0 0, LimiterOp.check 0 0,
         LimiterOp.release]) ≤ 2 ∧
    (checkRateLimit ⟨100, 2, 1000⟩
        ⟨some ⟨{ capacity := 100, refillRate := 5/3, tokens := 50 }, 2⟩,
         { capacity := 1000, refillRate := 50/3, tokens := 1000 }⟩ 0 0).1 = false ∧
    ipConcurrent (checkRateLimit ⟨100, 2, 1000⟩
        ⟨some ⟨{ capacity := 100, refillRate := 5/3, tokens := 50 }, 2⟩,
         { capacity := 1000, refillRate := 50/3, tokens := 1000 }⟩ 0 0).2 = 2 ∧
    ipConcurrent (releaseRequest
        ⟨some ⟨{ capacity := 100, refillRate := 5/3, tokens := 50 }, 0⟩,
         { capacity := 1000, refillRate := 50/3, tokens := 1000 }⟩) = 0 := by
  have h := C6_concurrency_cap ⟨100, 2, 1000⟩
    [LimiterOp.check 0 0, LimiterOp.check 0 0, LimiterOp.check 0 0,
     LimiterOp.release]
    ⟨some ⟨{ capacity := 100, refillRate := 5/3, tokens := 50 }, 2⟩,
     { capacity := 1000, refillRate := 50/3, tokens := 1000 }⟩ 0 0
    (by simp [ipConcurrent])
  refine ⟨h.1, h.2.1, by rw [h.2.2.1]; rfl, ?_⟩
  rw [h.2.2.2
    ⟨some ⟨{ capacity := 100, refillRate := 5/3, tokens := 50 }, 0⟩,
     { capacity := 1000, refillRate := 50/3, tokens := 1000 }⟩]
  rfl

/-- C10: starting from `TokenBucket::new(capacity, refill_rate)` (with a
nonnegative rate), every sequence of `try_consume` / `refill` /
`return_token` operations with nonnegative elapsed times keeps the token
count within `[0, capacity]`; and `try_consume(n)` returns `true` and
decrements the (lazily refilled) count by exactly `n` precisely when at
least `n` tokens are available after the lazy refill, leaving the
refilled count unchanged otherwise. -/
theorem C10_token_bucket_invariant (capacity : ℕ) (rate : ℚ)
    (ops : List TokenBucket.Op) (hr : 0 ≤ rate)
    (hops : ∀ op ∈ ops, 0 ≤ op.elapsed) :
    (TokenBucket.runOps (TokenBucket.new capacity rate) ops).Inv ∧
    (∀ (b : TokenBucket) (e : ℚ) (n : ℕ),
      ((n : ℚ) ≤ (b.refill e).tokens →
        b.tryConsume e n = (true, { b.refill e with tokens := (b.refill e).tokens - n })) ∧
      (¬ (n : ℚ) ≤ (b.refill e).tokens →
        b.tryConsume e n = (false, b.refill e))) := by
  refine ⟨?_, fun b e n => ⟨fun hle => ?_, fun hgt => ?_⟩⟩
  · have hrate : (TokenBucket.new capacity rate).refillRate = rate := rfl
    exact TokenBucket.runOps_inv (TokenBucket.new_inv capacity rate) hops
      (hrate ▸ hr)
  · unfold TokenBucket.tryConsume
    rw [if_pos hle]
  · unfold TokenBucket.tryConsume
    rw [if_neg hgt]

/-- Witness for C10: capacity 10, rate 1, operations
`try_consume(3)`, `return_token`, `refill(2 s)` keep the invariant; a
consume of 3 from the full bucket succeeds leaving 7 tokens; a consume
of 20 fails and leaves the refilled bucket unchanged. -/
theorem C10_token_bucket_invariant_witness :
    (TokenBucket.runOps (TokenBucket.new 10 1)
      [TokenBucket.Op.consume 0 3, TokenBucket.Op.ret,
       TokenBucket.Op.refillOp 2]).Inv ∧
    (TokenBucket.new 10 1).tryConsume 0 3 =
      (true, { capacity := 10, refillRate := 1, tokens := 7 }) ∧
    (TokenBucket.new 10 1).tryConsume 0 20 =
      (false, (TokenBucket.new 10 1).refill 0) := by
  have h := C10_token_bucket_invariant 10 1
    [TokenBucket.Op.consume 0 3, TokenBucket.Op.ret, TokenBucket.Op.refillOp 2]
    (by norm_num)
    (by intro op hop; fin_cases hop <;> norm_num [TokenBucket.Op.elapsed])
  refine ⟨h.1, ?_, ?_⟩
  · rw [(h.2 (TokenBucket.new 10 1) 0 3).1
      (by norm_num [TokenBucket.new, TokenBucket.refill, min_def])]
    simp [TokenBucket.new, TokenBucket.refill, min_def]
    norm_num
  · exact (h.2 (TokenBucket.new 10 1) 0 20).2
      (by norm_num [TokenBucket.new, TokenBucket.refill, min_def])

/-! ## Error taxonomy (`error.rs`, `Error`)

String payloads are modelled as `List Char`; the `Io`, `Serialization`
and `Anyhow` payloads (wrapped foreign error values) are modelled by
their display message. -/

/-- The `Error` enum from `crates/common/src/error.rs`. -/
inductive Err where
  | badRequest (msg : List Char)
  | modelNotFound (msg : List Char)
  | invalidModel (msg : List Char)
  | validationFailed (msg : List Char)
  | rateLimitExceeded
  | serviceUnavailable (msg : List Char)
  | modelLoadFailed (msg : List Char)
  | runtimeNotReady
  | timeout (secs : ℕ)
  | cancelled (msg : List Char)
  | userCancelled
  | internal (msg : List Char)
  | runtimeError (msg : List Char)
  | configError (msg : List Char)
  | io (msg : List Char)
  | serialization (msg : List Char)
  | anyhow (msg : List Char)
  deriving Repr, DecidableEq

namespace Err

/-- `Error::is_retryable`: the `matches!` arm of the source lists exactly
`ServiceUnavailable(_) | RuntimeNotReady | Timeout(_) | Io(_)`. -/
def isRetryable : Err → Bool
  | .serviceUnavailable _ => true
  | .runtimeNotReady => true
  | .timeout _ => true
  | .io _ => true
  | _ => false

/-- `Error::status_code`. -/
def statusCode : Err → ℕ
  | .badRequest _ => 400
  | .validationFailed _ => 400
  | .modelNotFound _ => 404
  | .invalidModel _ => 400
  | .rateLimitExceeded => 429
  | .serviceUnavailable _ => 503
  | .modelLoadFailed _ => 503
  | .runtimeNotReady => 503
  | .timeout _ => 408
  | .cancelled _ => 499
  | .userCancelled => 499
  | .internal _ => 500
  | .runtimeError _ => 500
  | .configError _ => 500
  | .io _ => 500
  | .serialization _ => 500
  | .anyhow _ => 500

end Err

/-- C9 counterexample: the claim's retryable set does not match the
code.  `RateLimitExceeded` and `ModelLoadFailed` (claimed retryable) are
not retryable in the code, while `Io` (claimed non-retryable) is. -/
theorem C9_counterexample :
    Err.isRetryable Err.rateLimitExceeded = false ∧
    Err.isRetryable (Err.modelLoadFailed []) = false ∧
    Err.isRetryable (Err.io []) = true := by
  decide

/-- C9 (amended): `Error::is_retryable` returns `true` for exactly
`ServiceUnavailable`, `RuntimeNotReady`, `Timeout` and `Io`, and `false`
for every other kind — in particular `RateLimitExceeded`,
`ModelLoadFailed`, `Internal`, `RuntimeError`, `ConfigError` and
`Serialization` are not retryable. -/
theorem C9_retryable_exactly (e : Err) :
    e.isRetryable = true ↔
      ((∃ s, e = Err.serviceUnavailable s) ∨ e = Err.runtimeNotReady ∨
       (∃ t, e = Err.timeout t) ∨ (∃ s, e = Err.io s)) := by
  cases e <;> simp [Err.isRetryable]

/-! ## Request validation (`dto.rs`)

Rust `String` is UTF-8: `str::len` counts bytes, not characters.  The
content of a message is modelled as its list of characters, and the byte
length is recovered by summing the UTF-8 encoded width of each
character. -/

/-- UTF-8 encoded width of a character (what `str::len` sums). -/
def charUtf8Size (c : Char) : ℕ :=
  if c.toNat < 0x80 then 1
  else if c.toNat < 0x800 then 2
  else if c.toNat < 0x10000 then 3
  else 4

/-- Rust `String::len`: the UTF-8 byte length. -/
def byteLen (s : List Char) : ℕ := (s.map charUtf8Size).sum

/-- `Role` from `dto.rs`. -/
inductive Role where
  | system
  | user
  | assistant
  deriving Repr, DecidableEq

/-- `Message` from `dto.rs`. -/
structure Message where
  role : Role
  content : List Char
  deriving Repr, DecidableEq

/-- `Message::validate`: empty content and content over 100 000 bytes
(`content.len() > 100_000` on a Rust `String`) are rejected. -/
def Message.validate (m : Message) : Except Err Unit :=
  if m.content = [] then
    .error (.badRequest "Message content cannot be empty".data)
  else if 100000 < byteLen m.content then
    .error (.badRequest "Message content too long (max 100k chars)".data)
  else
    .ok ()

/-- `ChatCompletionRequest` from `dto.rs`, floats modelled over `ℚ`. -/
structure ChatCompletionRequest where
  model : Option (List Char)
  messages : List Message
  temperature : Option ℚ
  maxTokens : Option ℕ
  stream : Option Bool
  topP : Option ℚ
  topK : Option ℤ
  repeatPenalty : Option ℚ
  deriving DecidableEq

/-- The `for msg in &self.messages { msg.validate()? }` loop: first
failing message aborts. -/
def validateMessages : List Message → Except Err Unit
  | [] => .ok ()
  | m :: ms =>
      match m.validate with
      | .error e => .error e
      | .ok _ => validateMessages ms

/-- A range test on an optional parameter (`if let Some(v) = ...`). -/
def optBad (f : α → Bool) : Option α → Bool
  | none => false
  | some v => f v

/-- `ChatCompletionRequest::validate`, following the source's check
order: non-empty messages, per-message validation, then temperature,
max_tokens, top_p, top_k and repeat_penalty ranges. -/
def ChatCompletionRequest.validate (r : ChatCompletionRequest) :
    Except Err Unit :=
  if r.messages.isEmpty then
    .error (.badRequest "Messages array cannot be empty".data)
  else
    match validateMessages r.messages with
    | .error e => .error e
    | .ok _ =>
        if optBad (fun t : ℚ => decide (t < 0) || decide (2 < t)) r.temperature then
          .error (.badRequest "Temperature must be between 0 and 2".data)
        else if optBad (fun n : ℕ => decide (n < 1) || decide (4096 < n)) r.maxTokens then
          .error (.badRequest "max_tokens must be between 1 and 4096".data)
        else if optBad (fun p : ℚ => decide (p < 0) || decide (1 < p)) r.topP then
          .error (.badRequest "top_p must be between 0 and 1".data)
        else if optBad (fun k : ℤ => decide (k < 1)) r.topK then
          .error (.badRequest "top_k must be at least 1".data)
        else if optBad (fun p : ℚ => decide (p < 1/10) || decide (2 < p)) r.repeatPenalty then
          .error (.badRequest "repeat_penalty must be between 0.1 and 2.0".data)
        else
          .ok ()

/-- The §3 validation rules exactly as the claim words them, with
content length measured in characters. -/
def SatClaim (r : ChatCompletionRequest) : Prop :=
  r.messages ≠ [] ∧
  (∀ m ∈ r.messages, m.content ≠ [] ∧ m.content.length ≤ 100000) ∧
  (∀ t, r.temperature = some t → 0 ≤ t ∧ t ≤ 2) ∧
  (∀ n, r.maxTokens = some n → 1 ≤ n ∧ n ≤ 4096) ∧
  (∀ p, r.topP = some p → 0 ≤ p ∧ p ≤ 1) ∧
  (∀ k, r.topK = some k → 1 ≤ k) ∧
  (∀ p, r.repeatPenalty = some p → 1/10 ≤ p ∧ p ≤ 2)

/-- The §3 validation rules with content length measured in UTF-8 bytes,
matching `str::len` in the source. -/
def SatBytes (r : ChatCompletionRequest) : Prop :=
  r.messages ≠ [] ∧
  (∀ m ∈ r.messages, m.content ≠ [] ∧ byteLen m.content ≤ 100000) ∧
  (∀ t, r.temperature = some t → 0 ≤ t ∧ t ≤ 2) ∧
  (∀ n, r.maxTokens = some n → 1 ≤ n ∧ n ≤ 4096) ∧
  (∀ p, r.topP = some p → 0 ≤ p ∧ p ≤ 1) ∧
  (∀ k, r.topK = some k → 1 ≤ k) ∧
  (∀ p, r.repeatPenalty = some p → 1/10 ≤ p ∧ p ≤ 2)

theorem Message.validate_ok_iff (m : Message) :
    m.validate = .ok () ↔ m.content ≠ [] ∧ byteLen m.content ≤ 100000 := by
  by_cases h1 : m.content = []
  · simp [Message.validate, h1]
  · by_cases h2 : 100000 < byteLen m.content
    · simp only [Message.validate, if_neg h1, if_pos h2]
      constructor
      · intro h; cases h
      · rintro ⟨-, hle⟩; omega
    · simp [Message.validate, h1, h2]
      omega

theorem validateMessages_ok_iff (ms : List Message) :
    validateMessages ms = .ok () ↔
      ∀ m ∈ ms, m.content ≠ [] ∧ byteLen m.content ≤ 100000 := by
  induction ms with
  | nil => simp [validateMessages]
  | cons m ms ih =>
      rcases hm : m.validate with e | u
      · simp only [validateMessages, hm]
        constructor
        · intro h; cases h
        · intro h
          have := (Message.validate_ok_iff m).mpr (h m (List.mem_cons_self _ _))
          rw [hm] at this; cases this
      · cases u
        simp only [validateMessages, hm, List.mem_cons]
        rw [ih]
        constructor
        · intro h x hx
          rcases hx with rfl | hx
          · exact (Message.validate_ok_iff x).mp hm
          · exact h x hx
        · intro h x hx
          exact h x (Or.inr hx)

theorem optBad_false_iff (f : α → Bool) (o : Option α) :
    optBad f o = false ↔ ∀ v, o = some v → f v = false := by
  cases o <;> simp [optBad]

/-- C7 (amended): `validate()` succeeds exactly on the requests
satisfying the §3 rules with the content-size limit read as 100 000
UTF-8 bytes (as `str::len` measures it), and hence fails on every
violation of those rules. -/
theorem C7_validate_ok_iff (r : ChatCompletionRequest) :
    r.validate = .ok () ↔ SatBytes r := by
  unfold ChatCompletionRequest.validate SatBytes
  by_cases h0 : r.messages.isEmpty
  · rw [if_pos h0]
    simp only [List.isEmpty_iff] at h0
    constructor
    · intro h; cases h
    · rintro ⟨hne, -⟩; exact absurd h0 hne
  · rw [if_neg h0]
    simp only [List.isEmpty_iff] at h0
    rcases hms : validateMessages r.messages with e | u
    · constructor
      · intro h; cases h
      · rintro ⟨-, hmsgs, -⟩
        have := (validateMessages_ok_iff r.messages).mpr hmsgs
        rw [hms] at this; cases this
    · cases u
      have hmsgs := (validateMessages_ok_iff r.messages).mp hms
      by_cases ht : optBad (fun t : ℚ => decide (t < 0) || decide (2 < t)) r.temperature
      · simp only [if_pos ht]
        constructor
        · intro h; cases h
        · rintro ⟨-, -, htemp, -⟩
          rcases hv : r.temperature with - | t
          · rw [hv] at ht; simp only [optBad] at ht; cases ht
          · have := htemp t hv
            rw [hv] at ht; simp only [optBad] at ht
            simp only [Bool.or_eq_true, decide_eq_true_eq] at ht
            rcases ht with h | h <;> linarith [this.1, this.2]
      · rw [if_neg ht]
        rw [Bool.not_eq_true] at ht
        by_cases hmt : optBad (fun n : ℕ => decide (n < 1) || decide (4096 < n)) r.maxTokens
        · simp only [if_pos hmt]
          constructor
          · intro h; cases h
          · rintro ⟨-, -, -, hmax, -⟩
            rcases hv : r.maxTokens with - | n
            · rw [hv] at hmt; simp only [optBad] at hmt; cases hmt
            · have := hmax n hv
              rw [hv] at hmt; simp only [optBad] at hmt
              simp only [Bool.or_eq_true, decide_eq_true_eq] at hmt
              omega
        · rw [if_neg hmt]
          rw [Bool.not_eq_true] at hmt
          by_cases hp : optBad (fun p : ℚ => decide (p < 0) || decide (1 < p)) r.topP
          · simp only [if_pos hp]
            constructor
            · intro h; cases h
            · rintro ⟨-, -, -, -, htp, -⟩
              rcases hv : r.topP with - | p
              · rw [hv] at hp; simp only [optBad] at hp; cases hp
              · have := htp p hv
                rw [hv] at hp; simp only [optBad] at hp
                simp only [Bool.or_eq_true, decide_eq_true_eq] at hp
                rcases hp with h | h <;> linarith [this.1, this.2]
          · rw [if_neg hp]
            rw [Bool.not_eq_true] at hp
            by_cases hk : optBad (fun k : ℤ => decide (k < 1)) r.topK
            · simp only [if_pos hk]
              constructor
              · intro h; cases h
              · rintro ⟨-, -, -, -, -, htk, -⟩
                rcases hv : r.topK with - | k
                · rw [hv] at hk; simp only [optBad] at hk; cases hk
                · have := htk k hv
                  rw [hv] at hk; simp only [optBad] at hk
                  simp only [decide_eq_true_eq] at hk
                  omega
            · rw [if_neg hk]
              rw [Bool.not_eq_true] at hk
              by_cases hrp : optBad (fun p : ℚ => decide (p < 1/10) || decide (2 < p)) r.repeatPenalty
              · simp only [if_pos hrp]
                constructor
                · intro h; cases h
                · rintro ⟨-, -, -, -, -, -, hpen⟩
                  rcases hv : r.repeatPenalty with - | p
                  · rw [hv] at hrp; simp only [optBad] at hrp; cases hrp
                  · have := hpen p hv
                    rw [hv] at hrp; simp only [optBad] at hrp
                    simp only [Bool.or_eq_true, decide_eq_true_eq] at hrp
                    rcases hrp with h | h <;> linarith [this.1, this.2]
              · rw [if_neg hrp]
                rw [Bool.not_eq_true] at hrp
                constructor
                · intro _
                  refine ⟨h0, hmsgs, ?_, ?_, ?_, ?_, ?_⟩
                  · intro t hv
                    have := (optBad_false_iff _ _).mp ht t hv
                    simp only [Bool.or_eq_false_iff, decide_eq_false_iff_not,
                      not_lt] at this
                    exact ⟨this.1, this.2⟩
                  · intro n hv
                    have := (optBad_false_iff _ _).mp hmt n hv
                    simp only [Bool.or_eq_false_iff, decide_eq_false_iff_not,
                      not_lt] at this
                    omega
                  · intro p hv
                    have := (optBad_false_iff _ _).mp hp p hv
                    simp only [Bool.or_eq_false_iff, decide_eq_false_iff_not,
                      not_lt] at this
                    exact ⟨this.1, this.2⟩
                  · intro k hv
                    have := (optBad_false_iff _ _).mp hk k hv
                    simp only [decide_eq_false_iff_not, not_lt] at this
                    omega
                  · intro p hv
                    have := (optBad_false_iff _ _).mp hrp p hv
                    simp only [Bool.or_eq_false_iff, decide_eq_false_iff_not,
                      not_lt] at this
                    exact ⟨this.1, this.2⟩
                · intro _
                  rfl

theorem byteLen_replicate (n : ℕ) (c : Char) :
    byteLen (List.replicate n c) = n * charUtf8Size c := by
  induction n with
  | zero => simp [byteLen]
  | succ n ih =>
      simp only [List.replicate_succ, byteLen, List.map_cons, List.sum_cons] at *
      rw [ih]
      ring

/-- A request whose single message holds 50 001 copies of `'é'`:
50 001 characters (within the claimed 100 000-character limit) but
100 002 UTF-8 bytes (beyond the 100 000 that `content.len()` checks). -/
def c7req : ChatCompletionRequest :=
  { model := none
    messages := [{ role := .user, content := List.replicate 50001 'é' }]
    temperature := none, maxTokens := none, stream := none
    topP := none, topK := none, repeatPenalty := none }

/-- C7 counterexample: `c7req` satisfies every §3 rule as the claim
words them (content length in characters), yet `validate()` rejects it,
because the source's `content.len() > 100_000` measures UTF-8 bytes. -/
theorem C7_counterexample :
    SatClaim c7req ∧ c7req.validate ≠ .ok () := by
  have hlen : (List.replicate 50001 'é').length = 50001 :=
    List.length_replicate _ _
  have hne : (List.replicate 50001 'é') ≠ [] :=
    List.ne_nil_of_length_pos (by rw [hlen]; norm_num)
  have h2 : charUtf8Size 'é' = 2 := by decide
  have hbl : 100000 < byteLen (List.replicate 50001 'é') := by
    rw [byteLen_replicate, h2]
    norm_num
  have hv : Message.validate { role := .user, content := List.replicate 50001 'é' } =
      .error (.badRequest "Message content too long (max 100k chars)".data) := by
    unfold Message.validate
    rw [if_neg hne, if_pos hbl]
  constructor
  · refine ⟨List.cons_ne_nil _ _, ?_, ?_, ?_, ?_, ?_, ?_⟩
    · intro m hm
      rw [show c7req.messages =
            [{ role := .user, content := List.replicate 50001 'é' }] from rfl] at hm
      rcases List.mem_singleton.mp hm with rfl
      exact ⟨hne, by rw [hlen]; norm_num⟩
    · intro t hv'; exact Option.noConfusion hv'
    · intro n hv'; exact Option.noConfusion hv'
    · intro p hv'; exact Option.noConfusion hv'
    · intro k hv'; exact Option.noConfusion hv'
    · intro p hv'; exact Option.noConfusion hv'
  · have hvm : validateMessages c7req.messages =
        .error (.badRequest "Message content too long (max 100k chars)".data) := by
      rw [show c7req.messages =
            [{ role := .user, content := List.replicate 50001 'é' }] from rfl]
      rw [validateMessages]
      rw [hv]
    intro hok
    unfold ChatCompletionRequest.validate at hok
    rw [show c7req.messages.isEmpty = false from rfl] at hok
    rw [hvm] at hok
    cases hok

/-! ## Rust string primitives over `List Char`

`str::find` returns the position of the first occurrence of a pattern;
`str::contains` its presence; `str::replace` rewrites all non-overlapping
occurrences left to right.  Positions are character positions here (the
source's byte positions index the same prefixes, since every use pairs a
`find` with a `truncate` at the found position).  The replace/trim loops
recurse on a fuel argument initialised to the haystack length, which
dominates the number of steps; the modelled call sites never pass an
empty pattern (`remove_template_markers` guards with `!marker.is_empty()`
and all role patterns are non-empty literals). -/

/-- `str::find`: position of the first occurrence of `needle`. -/
def findSub : List Char → List Char → Option ℕ
  | [], needle => if needle.isPrefixOf ([] : List Char) then some 0 else none
  | c :: t, needle =>
      if needle.isPrefixOf (c :: t) then some 0
      else (findSub t needle).map (· + 1)

/-- `str::contains`. -/
def containsSub (hay needle : List Char) : Bool :=
  (findSub hay needle).isSome

/-- Fuel-driven core of `str::replace`. -/
def replaceSubF : ℕ → List Char → List Char → List Char → List Char
  | 0, hay, _, _ => hay
  | _ + 1, [], _, _ => []
  | fuel + 1, c :: t, needle, repl =>
      if needle ≠ [] ∧ needle.isPrefixOf (c :: t) then
        repl ++ replaceSubF fuel ((c :: t).drop needle.length) needle repl
      else
        c :: replaceSubF fuel t needle repl

/-- `str::replace(needle, repl)` (for the non-empty needles the modelled
code passes). -/
def replaceSub (hay needle repl : List Char) : List Char :=
  replaceSubF hay.length hay needle repl

/-- Rust `char::is_whitespace` (Unicode White_Space). -/
def isRustWhitespace (c : Char) : Bool :=
  c = ' ' || (Char.ofNat 0x09 ≤ c && c ≤ Char.ofNat 0x0d) ||
  c = Char.ofNat 0x85 || c = Char.ofNat 0xa0 || c = Char.ofNat 0x1680 ||
  (Char.ofNat 0x2000 ≤ c && c ≤ Char.ofNat 0x200a) ||
  c = Char.ofNat 0x2028 || c = Char.ofNat 0x2029 || c = Char.ofNat 0x202f ||
  c = Char.ofNat 0x205f || c = Char.ofNat 0x3000

/-- `str::trim_start`. -/
def trimStart (s : List Char) : List Char := s.dropWhile isRustWhitespace

/-- `str::trim_end`. -/
def trimEnd (s : List Char) : List Char :=
  (s.reverse.dropWhile isRustWhitespace).reverse

/-- `str::trim`. -/
def trimBoth (s : List Char) : List Char := trimEnd (trimStart s)

/-- Fuel-driven core of `str::trim_start_matches`. -/
def trimStartMatchesF : ℕ → List Char → List Char → List Char
  | 0, s, _ => s
  | fuel + 1, s, pat =>
      if pat ≠ [] ∧ pat.isPrefixOf s then
        trimStartMatchesF fuel (s.drop pat.length) pat
      else s

/-- `str::trim_start_matches(pat)`: strip every leading repetition. -/
def trimStartMatches (s pat : List Char) : List Char :=
  trimStartMatchesF s.length s pat

/-- Strip one trailing carriage return (the `\r\n` handling of
`str::lines`). -/
def stripTrailingCR (l : List Char) : List Char :=
  match l.getLast? with
  | some c => if c = '\x0d' then l.dropLast else l
  | none => l

/-- `str::lines`: split on `'\n'`, dropping one trailing empty segment
and any trailing `'\r'` per line. -/
def rustLines (s : List Char) : List (List Char) :=
  let parts := List.splitOn '\n' s
  let parts := if parts.getLast? = some [] then parts.dropLast else parts
  parts.map stripTrailingCR

/-! ## Template engine (`template_engine.rs`) -/

/-- `TemplateConfig` from the config crate (all fields are strings). -/
structure TemplateConfig where
  id : List Char
  name : List Char
  systemPre : List Char
  systemSuf : List Char
  userPre : List Char
  userSuf : List Char
  assistantPre : List Char
  assistantSuf : List Char
  defaultSystemPrompt : List Char
  deriving Repr, DecidableEq

/-- `TEMPLATE_MARKERS` from `template_engine.rs`, in source order. -/
def TEMPLATE_MARKERS : List (List Char) :=
  ["<|eot_id|>".data, "<|end_of_text|>".data, "<|start_header_id|>".data,
   "<|end_header_id|>".data, "<|im_end|>".data, "<|im_start|>".data]

/-- `ROLE_PATTERNS` from `template_engine.rs`, in source order. -/
def ROLE_PATTERNS : List (List Char) :=
  ["AI:".data, "You:".data, "User:".data, "Assistant:".data, "System:".data,
   "Human:".data, "Bot:".data, "### Instruction:".data, "### Response:".data]

/-- `ROLE_POLLUTION_FALLBACK` (the fixed refusal line; the apostrophe is
spliced in as character 39). -/
def ROLE_POLLUTION_FALLBACK : List Char :=
  "I understand you".data ++ [Char.ofNat 39] ++
  "d like me to respond, but I should avoid role-playing conversations. How can I help you directly?".data

/-- `EMPTY_RESPONSE_FALLBACK`. -/
def EMPTY_RESPONSE_FALLBACK : List Char :=
  "I".data ++ [Char.ofNat 39] ++ "m here to help. What would you like to know?".data

/-- The `for stop_seq in stop_sequences` loop of
`truncate_at_stop_sequence`: first list element that occurs anywhere in
the text, with its position. -/
def firstStopHit (text : List Char) : List (List Char) → Option (List Char × ℕ)
  | [] => none
  | s :: rest =>
      match findSub text s with
      | some pos => some (s, pos)
      | none => firstStopHit text rest

/-- `TemplateEngine::truncate_at_stop_sequence`: try each stop sequence
in list order, then the EOS token; truncate at the first occurrence of
the chosen element. -/
def truncateAtStopSequence (text : List Char) (stops : List (List Char))
    (eos : List Char) : List Char × Option (List Char) :=
  match firstStopHit text stops with
  | some (s, pos) => (text.take pos, some s)
  | none =>
      match findSub text eos with
      | some pos => (text.take pos, some eos)
      | none => (text, none)

/-- `TemplateEngine::remove_template_echoes`. -/
def removeTemplateEchoes (text : List Char) (t : TemplateConfig) : List Char :=
  let text1 :=
    if t.assistantPre ≠ [] ∧ t.assistantPre.isPrefixOf text then
      text.drop t.assistantPre.length
    else text
  if t.assistantSuf ≠ [] ∧ t.assistantSuf.isSuffixOf text1 then
    text1.take (text1.length - t.assistantSuf.length)
  else text1

/-- `TemplateEngine::remove_template_markers`: one
`text.replace(marker, "")` pass per marker, in `TEMPLATE_MARKERS`
order. -/
def removeTemplateMarkers (text : List Char) : List Char :=
  TEMPLATE_MARKERS.foldl
    (fun acc m =>
      if m ≠ [] ∧ containsSub acc m then replaceSub acc m [] else acc)
    text

/-- `TemplateEngine::has_dialogue_pattern`. -/
def hasDialoguePattern (text : List Char) : Bool :=
  containsSub text "AI:".data && containsSub text "You:".data

/-- `TemplateEngine::clean_role_from_line`. -/
def cleanRoleFromLine (line : List Char) : Option (List Char) :=
  let trimmed := trimStart line
  match ROLE_PATTERNS.find? (fun p => p.isPrefixOf trimmed) with
  | some pat =>
      let remainder := trimBoth (trimStartMatches trimmed pat)
      if remainder ≠ [] then some remainder else none
  | none =>
      some (ROLE_PATTERNS.foldl
        (fun acc pat =>
          if containsSub acc pat ∧ ¬ pat.isPrefixOf acc then
            replaceSub (replaceSub acc ('\x0a' :: pat) ['\x0a'])
              ('.' :: ' ' :: pat) ['.', ' ']
          else acc)
        line)

/-- `TemplateEngine::remove_role_pollution`. -/
def removeRolePollution (text : List Char) : List Char :=
  if hasDialoguePattern text then ROLE_POLLUTION_FALLBACK
  else
    let cleanedLines :=
      ((rustLines text).filterMap cleanRoleFromLine).filter (fun l => l ≠ [])
    let result := trimBoth (List.intercalate ['\x0a'] cleanedLines)
    if result = [] then EMPTY_RESPONSE_FALLBACK else result

/-- `TemplateEngine::clean_response`: truncate at stop sequences, strip
echoed assistant markers, remove template markers, remove role
pollution, trim.  Returns `(content, stopped_at)`. -/
def cleanResponse (response : List Char) (t : TemplateConfig)
    (stops : List (List Char)) (eos : List Char) :
    List Char × Option (List Char) :=
  let first := truncateAtStopSequence response stops eos
  let cleaned := removeTemplateEchoes first.1 t
  let cleaned := removeTemplateMarkers cleaned
  let cleaned := removeRolePollution cleaned
  (trimBoth cleaned, first.2)

/-! ### Facts about `findSub` and `firstStopHit` -/

theorem findSub_some :
    ∀ {text s : List Char} {i : ℕ}, findSub text s = some i →
      s.isPrefixOf (text.drop i) = true ∧
      ∀ j, j < i → s.isPrefixOf (text.drop j) = false := by
  intro text
  induction text with
  | nil =>
      intro s i h
      unfold findSub at h
      split at h
      · rename_i hp
        cases h
        exact ⟨hp, fun j hj => absurd hj (Nat.not_lt_zero j)⟩
      · cases h
  | cons c t ih =>
      intro s i h
      unfold findSub at h
      split at h
      · rename_i hp
        cases h
        exact ⟨hp, fun j hj => absurd hj (Nat.not_lt_zero j)⟩
      · rename_i hp
        rcases hmap : findSub t s with - | i'
        · rw [hmap] at h; cases h
        · rw [hmap] at h
          simp only [Option.map_some'] at h
          cases h
          obtain ⟨h1, h2⟩ := ih hmap
          refine ⟨by simpa using h1, ?_⟩
          intro j hj
          cases j with
          | zero =>
              simp only [List.drop_zero]
              exact Bool.not_eq_true _ ▸ hp
          | succ j' =>
              rw [List.drop_succ_cons]
              exact h2 j' (by omega)

theorem findSub_take_append {text s : List Char} {i : ℕ}
    (h : findSub text s = some i) : text.take i ++ s <+: text := by
  obtain ⟨h1, -⟩ := findSub_some h
  rw [List.isPrefixOf_iff_prefix] at h1
  obtain ⟨u, hu⟩ := h1
  exact ⟨u, by rw [List.append_assoc, hu, List.take_append_drop]⟩

theorem firstStopHit_some {text : List Char} :
    ∀ {stops : List (List Char)} {s : List Char} {i : ℕ},
      firstStopHit text stops = some (s, i) → findSub text s = some i := by
  intro stops
  induction stops with
  | nil => intro s i h; cases h
  | cons s' rest ih =>
      intro s i h
      unfold firstStopHit at h
      rcases hf : findSub text s' with - | pos
      · rw [hf] at h; exact ih h
      · rw [hf] at h; cases h; exact hf

theorem firstStopHit_none {text : List Char} :
    ∀ {stops : List (List Char)}, firstStopHit text stops = none →
      ∀ s ∈ stops, findSub text s = none := by
  intro stops
  induction stops with
  | nil => intro _ s hs; cases hs
  | cons s' rest ih =>
      intro h s hs
      unfold firstStopHit at h
      rcases hf : findSub text s' with - | pos
      · rw [hf] at h
        cases hs with
        | head => exact hf
        | tail _ hs => exact ih h s hs
      · rw [hf] at h; cases h

theorem firstStopHit_fst (text : List Char) :
    ∀ stops : List (List Char),
      (firstStopHit text stops).map Prod.fst =
        stops.find? (fun s => containsSub text s) := by
  intro stops
  induction stops with
  | nil => rfl
  | cons s rest ih =>
      unfold firstStopHit
      rcases hf : findSub text s with - | pos
      · simp [List.find?, containsSub, hf, ih]
      · simp [List.find?, containsSub, hf]

/-- C8 (amended): `truncate_at_stop_sequence` records as `stopped_at` the
first element of `stop_sequences` *in list order* that occurs anywhere in
the text (the EOS token is tried only after every stop sequence), and
truncates at the start of the first occurrence *of that element* —
not at the earliest occurrence over all elements; when no element
occurs, the text is unchanged and `stopped_at` is `None`. -/
theorem C8_truncate_list_order (text : List Char) (stops : List (List Char))
    (eos : List Char) :
    ((truncateAtStopSequence text stops eos).2 =
        match stops.find? (fun s => containsSub text s) with
        | some s => some s
        | none => if containsSub text eos then some eos else none) ∧
    (∀ s, (truncateAtStopSequence text stops eos).2 = some s →
        ∃ i, findSub text s = some i ∧
          (truncateAtStopSequence text stops eos).1 = text.take i ∧
          (truncateAtStopSequence text stops eos).1 ++ s <+: text ∧
          ∀ j, j < i → ¬ s <+: text.drop j) ∧
    ((truncateAtStopSequence text stops eos).2 = none →
        (truncateAtStopSequence text stops eos).1 = text ∧
        (∀ s ∈ stops, containsSub text s = false) ∧
        containsSub text eos = false) := by
  refine ⟨?_, ?_, ?_⟩
  · rw [← firstStopHit_fst]
    unfold truncateAtStopSequence
    rcases hfs : firstStopHit text stops with - | ⟨s, i⟩
    · rcases hfe : findSub text eos with - | j <;>
        simp [hfs, hfe, containsSub]
    · simp [hfs]
  · intro s hs
    unfold truncateAtStopSequence at hs ⊢
    rcases hfs : firstStopHit text stops with - | ⟨s', i'⟩
    · rw [hfs] at hs
      rcases hfe : findSub text eos with - | j
      · rw [hfe] at hs; cases hs
      · rw [hfe] at hs
        simp only at hs
        cases hs
        refine ⟨j, hfe, by simp [hfs, hfe], ?_, ?_⟩
        · simpa [hfs, hfe] using findSub_take_append hfe
        · intro k hk hpre
          have h1 := (findSub_some hfe).2 k hk
          have h2 : eos.isPrefixOf (List.drop k text) = true :=
            List.isPrefixOf_iff_prefix.mpr hpre
          rw [h1] at h2
          cases h2
    · rw [hfs] at hs
      simp only at hs
      cases hs
      have hf := firstStopHit_some hfs
      refine ⟨i', hf, by simp [hfs], ?_, ?_⟩
      · simpa [hfs] using findSub_take_append hf
      · intro k hk hpre
        have h1 := (findSub_some hf).2 k hk
        have h2 : s.isPrefixOf (List.drop k text) = true :=
          List.isPrefixOf_iff_prefix.mpr hpre
        rw [h1] at h2
        cases h2
  · intro hnone
    unfold truncateAtStopSequence at hnone ⊢
    rcases hfs : firstStopHit text stops with - | ⟨s', i'⟩
    · rcases hfe : findSub text eos with - | j
      · refine ⟨by simp [hfs, hfe], ?_, by simp [containsSub, hfe]⟩
        intro s hs
        simp [containsSub, firstStopHit_none hfs s hs]
      · rw [hfs, hfe] at hnone; cases hnone
    · rw [hfs] at hnone; cases hnone

/-- Witness for C8 on `"XbYa"` with the single stop sequence `"a"`:
`stopped_at = "a"` and the truncated text extended by `"a"` is a prefix
of the input (truncation at the first occurrence of `"a"`). -/
theorem C8_truncate_list_order_witness :
    (truncateAtStopSequence "XbYa".data ["a".data] "e".data).2 =
      some "a".data ∧
    (truncateAtStopSequence "XbYa".data ["a".data] "e".data).1 ++ "a".data <+:
      "XbYa".data := by
  have h := C8_truncate_list_order "XbYa".data ["a".data] "e".data
  obtain ⟨i, hfind, htake, hpre, hmin⟩ := h.2.1 "a".data (by decide)
  exact ⟨by decide, hpre⟩

/-- Best candidate by position among `(element, position)` pairs: the
claim's "earliest position in the text" reading (earlier list order wins
ties). -/
def bestCandidate : List (List Char × ℕ) → Option (List Char × ℕ)
  | [] => none
  | c :: rest =>
      match bestCandidate rest with
      | none => some c
      | some d => if d.2 < c.2 then some d else some c

/-- The claim's reading of `truncate_at_stop_sequence`: truncate at the
earliest position in the text at which any element of
`stop_sequences ∪ {eos_token}` occurs, recording that element. -/
def truncateAtStopSpec (text : List Char) (stops : List (List Char))
    (eos : List Char) : List Char × Option (List Char) :=
  match bestCandidate ((stops ++ [eos]).filterMap
      (fun s => (findSub text s).map (fun i => (s, i)))) with
  | some (s, i) => (text.take i, some s)
  | none => (text, none)

/-- C8 counterexample: on text `"ba"` with `stop_sequences = ["a", "b"]`,
the code truncates at `"a"` (position 1, first in list order) while the
claim's earliest-position reading requires `"b"` (position 0). -/
theorem C8_counterexample :
    truncateAtStopSequence "ba".data ["a".data, "b".data] "e".data =
      ("b".data, some "a".data) ∧
    truncateAtStopSpec "ba".data ["a".data, "b".data] "e".data =
      ([], some "b".data) ∧
    truncateAtStopSequence "ba".data ["a".data, "b".data] "e".data ≠
      truncateAtStopSpec "ba".data ["a".data, "b".data] "e".data := by
  decide

/-- The template configuration used by the engine's unit tests (the
markers below never coincide with its assistant prefix/suffix). -/
def tmplTest : TemplateConfig :=
  { id := "test".data, name := "Test".data,
    systemPre := "<|system|>".data, systemSuf := "</|system|>".data,
    userPre := "<|user|>".data, userSuf := "</|user|>".data,
    assistantPre := "<|assistant|>".data, assistantSuf := "</|assistant|>".data,
    defaultSystemPrompt := "You are helpful.".data }

/-- C3: `clean_response` does not guarantee a marker-free, role-free
result.  Removing `"<|eot_id|>"` from `"<|eot<|eot_id|>_id|>"` splices a
fresh `"<|eot_id|>"` together (the per-marker `replace` is a single
pass), and stripping the leading `"User:"` from `"User:Assistant: hi"`
leaves a line beginning with `"Assistant:"`. -/
theorem C3_clean_response_leaks :
    containsSub (cleanResponse "<|eot<|eot_id|>_id|>".data tmplTest []
        "</s>".data).1 "<|eot_id|>".data = true ∧
    (∃ line ∈ rustLines (cleanResponse "User:Assistant: hi".data tmplTest []
        "</s>".data).1, ∃ p ∈ ROLE_PATTERNS, p.isPrefixOf line = true) := by
  decide

/-! ## Engine adapter streaming loop (`llama_adapter.rs`, `generate`)

The model covers the stream body on the successful-connection path
(`response.status().is_success()`), which is where every cited claim
lives.  An engine byte chunk is either a transport error or a list of
parsed SSE events (`data: {...}` payloads that deserialised to
`StreamChunk { content, stop }`; malformed payloads are skipped by the
source and are therefore not represented).  The nesting of the source's
loops is preserved: the `break` statements in the pollution and stop
branches leave only the innermost `for line in event.lines()` loop, so
processing continues with the next SSE event; only the transport-error
`break` leaves the outer `while` loop, after which the final `Done`
frame is still yielded. -/

/-- A parsed engine SSE event (`StreamChunk` in the source). -/
structure EngineEvent where
  content : List Char
  stop : Bool
  deriving Repr, DecidableEq

/-- One `bytes_stream.next()` result: a chunk of parsed events, or a
transport error. -/
inductive EngineChunk where
  | ok (events : List EngineEvent)
  | err (msg : List Char)
  deriving Repr, DecidableEq

/-- `StreamFrame` from `dto.rs` (Start always carries
`role = assistant`; Done always carries `finish_reason = stop` in this
code path, so only the usage numbers are kept). -/
inductive StreamFrame where
  | start (id model : List Char)
  | delta (content : List Char)
  | done (promptTokens completionTokens totalTokens : ℕ)
  | error (msg : List Char)
  deriving Repr, DecidableEq

/-- The substring the source uses to test whether the refusal line was
already emitted (`"I understand you'd like me to respond"`). -/
def REFUSAL_MARK : List Char :=
  "I understand you".data ++ [Char.ofNat 39] ++ "d like me to respond".data

/-- The `if chunk.stop` tail of the event handler: run `clean_response`
over the full accumulation and emit a newline `Delta` when it stripped a
trailing stop sequence. -/
def stopFrames (t : TemplateConfig) (stops : List (List Char))
    (eos : List Char) (acc : List Char) : List StreamFrame :=
  if (cleanResponse acc t stops eos).2.isSome then
    [.delta [Char.ofNat 10]]
  else []

/-- Handling of one parsed SSE event, from the `if let Ok(chunk)` body:
accumulate non-empty content, emit the refusal once on a dialogue leak
(skipping the stop check of that event — the `break` leaves the line
loop before it), otherwise emit the piece as-is, then handle
`chunk.stop`.  Returns the new `(accumulated, token_count)` state and
the yielded frames. -/
def processEvent (t : TemplateConfig) (stops : List (List Char))
    (eos : List Char) (st : List Char × ℕ) (ev : EngineEvent) :
    (List Char × ℕ) × List StreamFrame :=
  if ev.content = [] then
    (st, if ev.stop then stopFrames t stops eos st.1 else [])
  else
    let acc2 := st.1 ++ ev.content
    let n2 := st.2 + 1
    if containsSub acc2 "AI:".data && containsSub acc2 "You:".data then
      if containsSub acc2 REFUSAL_MARK = false then
        ((ROLE_POLLUTION_FALLBACK, n2), [.delta ROLE_POLLUTION_FALLBACK])
      else
        ((acc2, n2), if ev.stop then stopFrames t stops eos acc2 else [])
    else
      ((acc2, n2),
       .delta ev.content :: (if ev.stop then stopFrames t stops eos acc2 else []))

/-- The inner `while let Some(newline_pos)` loop over the SSE events of
one byte chunk. -/
def processEvents (t : TemplateConfig) (stops : List (List Char))
    (eos : List Char) :
    List Char × ℕ → List EngineEvent → (List Char × ℕ) × List StreamFrame
  | st, [] => (st, [])
  | st, ev :: evs =>
      let r := processEvent t stops eos st ev
      let r' := processEvents t stops eos r.1 evs
      (r'.1, r.2 ++ r'.2)

/-- The final `Done` frame: `prompt_tokens ≈ prompt.len() / 4`,
`completion_tokens = token_count`. -/
def doneFrame (promptLen n : ℕ) : StreamFrame :=
  .done (promptLen / 4) n (promptLen / 4 + n)

/-- The outer `while let Some(chunk_result)` loop: a transport error
yields `Error` and breaks, after which the source still yields `Done`;
when the byte stream ends, `Done` is yielded. -/
def runChunks (t : TemplateConfig) (stops : List (List Char))
    (eos : List Char) (promptLen : ℕ) :
    List Char × ℕ → List EngineChunk → List StreamFrame
  | st, [] => [doneFrame promptLen st.2]
  | st, .ok evs :: rest =>
      let r := processEvents t stops eos st evs
      r.2 ++ runChunks t stops eos promptLen r.1 rest
  | st, .err m :: _ =>
      [.error ("Stream error: ".data ++ m), doneFrame promptLen st.2]

/-- The frames produced by `generate`'s stream on the
successful-connection path, for a given sequence of engine chunks:
`Start` first, then the loop. -/
def generateFrames (id model : List Char) (t : TemplateConfig)
    (stops : List (List Char)) (eos : List Char) (promptLen : ℕ)
    (chunks : List EngineChunk) : List StreamFrame :=
  .start id model :: runChunks t stops eos promptLen ([], 0) chunks

/-- A terminal frame in the sense of the claimed grammar. -/
def isTerminal : StreamFrame → Bool
  | .done _ _ _ => true
  | .error _ => true
  | _ => false

/-- `Delta* (Done | Error)`. -/
def deltasThenTerminal : List StreamFrame → Bool
  | [] => false
  | [f] => isTerminal f
  | .delta _ :: rest => deltasThenTerminal rest
  | _ => false

/-- The claimed stream grammar `Start Delta* (Done | Error)`. -/
def matchesGrammar : List StreamFrame → Bool
  | .start _ _ :: rest => deltasThenTerminal rest
  | _ => false

/-- C1: on a mid-stream transport error the adapter yields `Error` and
breaks out of the read loop, but the unconditional `Done` after the loop
is still yielded: the stream is `Start, Error, Done`, so a frame follows
the terminal `Error` and the claimed grammar is violated. -/
theorem C1_error_then_done :
    generateFrames "req-1".data "model-a".data tmplTest [] "</s>".data 0
        [.err "boom".data] =
      [.start "req-1".data "model-a".data,
       .error ("Stream error: boom".data),
       .done 0 0 0] ∧
    matchesGrammar (generateFrames "req-1".data "model-a".data tmplTest []
        "</s>".data 0 [.err "boom".data]) = false := by
  decide

/-- C4 (amended): for every non-empty engine content piece that does not
trigger the dialogue-leak check (and is not a stop event), the adapter
emits exactly one `Delta` carrying the piece verbatim — no template
markers are stripped and no emptiness-after-trimming test is applied —
while accumulating the raw text and bumping the token count. -/
theorem C4_piece_emitted_verbatim (t : TemplateConfig)
    (stops : List (List Char)) (eos : List Char) (st : List Char × ℕ)
    (ev : EngineEvent) (hne : ev.content ≠ []) (hstop : ev.stop = false)
    (hpoll : (containsSub (st.1 ++ ev.content) "AI:".data &&
              containsSub (st.1 ++ ev.content) "You:".data) = false) :
    (processEvent t stops eos st ev).2 = [.delta ev.content] ∧
    (processEvent t stops eos st ev).1 = (st.1 ++ ev.content, st.2 + 1) := by
  unfold processEvent
  rw [if_neg hne]
  simp only [hstop]
  rw [if_neg (by rw [hpoll]; simp)]
  simp

/-- Witness for C4 at a concrete piece `"hi"` and empty accumulation. -/
theorem C4_piece_emitted_verbatim_witness :
    (processEvent tmplTest [] "</s>".data ([], 0) ⟨"hi".data, false⟩).2 =
      [.delta "hi".data] ∧
    (processEvent tmplTest [] "</s>".data ([], 0) ⟨"hi".data, false⟩).1 =
      ("hi".data, 1) := by
  have h := C4_piece_emitted_verbatim tmplTest [] "</s>".data ([], 0)
    ⟨"hi".data, false⟩ (by decide) rfl (by decide)
  exact ⟨h.1, h.2⟩

/-- The claim's per-piece behaviour as stated: strip the template
markers from the piece, emit `Delta` only if non-empty after trimming. -/
def claimPieceFrames (piece : List Char) : List StreamFrame :=
  let stripped := removeTemplateMarkers piece
  if trimBoth stripped = [] then [] else [.delta stripped]

/-- C4 counterexample: for the piece `"<|eot_id|>"` (empty accumulation,
no dialogue leak) the code emits `Delta "<|eot_id|>"` verbatim, while
the claim requires stripping the marker and, the remainder being empty,
emitting nothing. -/
theorem C4_counterexample :
    (processEvent tmplTest [] "</s>".data ([], 0)
        ⟨"<|eot_id|>".data, false⟩).2 = [.delta "<|eot_id|>".data] ∧
    claimPieceFrames "<|eot_id|>".data = [] ∧
    (processEvent tmplTest [] "</s>".data ([], 0)
        ⟨"<|eot_id|>".data, false⟩).2 ≠ claimPieceFrames "<|eot_id|>".data := by
  decide

set_option maxRecDepth 8192 in
/-- C5: after the dialogue-leak pattern triggers the one-shot refusal
`Delta`, the `break` leaves only the innermost line loop, so the adapter
keeps consuming engine output: a subsequent content piece `"more"` is
emitted as a further content `Delta` after the refusal and before
`Done`. -/
theorem C5_content_after_refusal :
    generateFrames "req-1".data "model-a".data tmplTest [] "</s>".data 0
        [.ok [⟨"AI: hi\nYou: hi\n".data, false⟩],
         .ok [⟨"more".data, false⟩]] =
      [.start "req-1".data "model-a".data,
       .delta ROLE_POLLUTION_FALLBACK,
       .delta "more".data,
       .done 0 2 2] := by
  decide

end ChatSafe
